import Mathlib

/-!
Shallow embedding of `pyskl/core/ava_utils/np_box.py`: vectorized bounding-box
geometry (`area`, `intersection`, `iou`) over `[N, 4]` arrays, and the
validated `BoxList` container.  Arrays are modelled as lists of rows of
rational coordinates; numpy's vectorized column arithmetic is modelled by
explicit column extraction and elementwise matrix operations.
-/

namespace NpBox

/-- A 2-D numeric array: a list of rows. -/
abbrev Mat := List (List ℚ)

/-- Element access within a row (`v[j]` in numpy, rows known to be long enough). -/
def getv (r : List ℚ) (j : Nat) : ℚ := r.getD j 0

/-- Column extraction `boxes[:, j]` / the `np.split(..., axis=1)` columns. -/
def col (boxes : Mat) (j : Nat) : List ℚ := boxes.map (fun r => getv r j)

/-- Python `area(boxes)`: `(boxes[:, 2] - boxes[:, 0]) * (boxes[:, 3] - boxes[:, 1])`. -/
def area (boxes : Mat) : List ℚ :=
  List.zipWith (· * ·)
    (List.zipWith (· - ·) (col boxes 2) (col boxes 0))
    (List.zipWith (· - ·) (col boxes 3) (col boxes 1))

/-- Broadcasting a column vector against a transposed (row) vector:
`f(v[:, None], w[None, :])`, an `|v| × |w|` matrix. -/
def outer (f : ℚ → ℚ → ℚ) (v w : List ℚ) : Mat :=
  v.map (fun a => w.map (fun b => f a b))

/-- Elementwise binary operation on two same-shape matrices. -/
def matZipWith (f : ℚ → ℚ → ℚ) (A B : Mat) : Mat :=
  List.zipWith (List.zipWith f) A B

/-- Clamp `np.maximum(np.zeros(...), A)`: clamp every entry to be non-negative. -/
def matMax0 (A : Mat) : Mat := A.map (fun r => r.map (fun a => max 0 a))

/-- Python `intersection(boxes1, boxes2)`: pairwise intersection areas.
Columns 0..3 of a box row are `[y_min, x_min, y_max, x_max]`. -/
def intersection (boxes1 boxes2 : Mat) : Mat :=
  let intersect_heights :=
    matMax0 (matZipWith (· - ·)
      (outer min (col boxes1 2) (col boxes2 2))
      (outer max (col boxes1 0) (col boxes2 0)))
  let intersect_widths :=
    matMax0 (matZipWith (· - ·)
      (outer min (col boxes1 3) (col boxes2 3))
      (outer max (col boxes1 1) (col boxes2 1)))
  matZipWith (· * ·) intersect_heights intersect_widths

/-- The `union` denominator computed inside `iou`:
`area1[:, None] + area2[None, :] - intersect`. -/
def union (boxes1 boxes2 : Mat) : Mat :=
  matZipWith (· - ·) (outer (· + ·) (area boxes1) (area boxes2))
    (intersection boxes1 boxes2)

/-- Python `iou(boxes1, boxes2) = intersect / union` (elementwise division;
the code performs the division unguarded). -/
def iou (boxes1 boxes2 : Mat) : Mat :=
  matZipWith (· / ·) (intersection boxes1 boxes2) (union boxes1 boxes2)

/-- Matrix entry `A[i, j]`. -/
def ent (A : Mat) (i j : Nat) : ℚ := getv (A.getD i []) j

/-- Shape-aware transpose of an `nRows × nCols` matrix. -/
def transposeMat (nRows nCols : Nat) (A : Mat) : Mat :=
  (List.range nCols).map (fun j => (List.range nRows).map (fun i => ent A i j))

/-! ### Closed forms: each vectorized function as a per-row/per-pair map -/

/-- The scalar area of one box row. -/
def areaEnt (r : List ℚ) : ℚ := (getv r 2 - getv r 0) * (getv r 3 - getv r 1)

/-- The scalar pairwise intersection area of two box rows. -/
def interEnt (r1 r2 : List ℚ) : ℚ :=
  max 0 (min (getv r1 2) (getv r2 2) - max (getv r1 0) (getv r2 0)) *
  max 0 (min (getv r1 3) (getv r2 3) - max (getv r1 1) (getv r2 1))

/-! ### BoxList: validated box collection -/

/-- Numpy element dtypes relevant to the construction checks. -/
inductive Dtype
  | float32
  | float64
  | int32
  | int64
  | object
deriving DecidableEq

/-- A numpy array as `BoxList` sees it: element dtype, shape, and (for 2-D
arrays) the rows of numeric data. -/
structure Ndarray where
  dtype : Dtype
  shape : List Nat
  rows : Mat
deriving DecidableEq

/-- A Python value handed to `BoxList.__init__`: an ndarray or anything else. -/
inductive PyValue
  | ndarray (a : Ndarray)
  | other
deriving DecidableEq

/-- Box collection: the dict `self.data`, as an insertion-ordered association
list with unique keys. -/
structure BoxList where
  data : List (String × Ndarray)
deriving DecidableEq

/-- Success/failure observer for the `ValueError`-raising operations. -/
def isErr {α : Type} (e : Except String α) : Bool :=
  match e with
  | .error _ => true
  | .ok _ => false

/-- Python `BoxList._is_valid_boxes`: returns `False` iff some row `v` has
`v[0] > v[2]` or `v[1] > v[3]` (the empty array is valid). -/
def BoxList.is_valid_boxes (data : Mat) : Bool :=
  data.all fun v => !(decide (getv v 0 > getv v 2) || decide (getv v 1 > getv v 3))

/-- Python `BoxList.__init__`: validates that the input is an ndarray of shape
`[N, 4]`, of float dtype, with every row a well-ordered box, then stores
`{'boxes': data}`. -/
def BoxList.init (v : PyValue) : Except String BoxList :=
  match v with
  | .other => .error "data must be a numpy array."
  | .ndarray data =>
    if data.shape.length ≠ 2 ∨ data.shape.getD 1 0 ≠ 4 then
      .error "Invalid dimensions for box data."
    else if data.dtype ≠ .float32 ∧ data.dtype ≠ .float64 then
      .error "Invalid data type for box data: float is required."
    else if ¬ BoxList.is_valid_boxes data.rows then
      .error "Invalid box data. data must be a numpy array of N*[y_min, x_min, y_max, x_max]"
    else
      .ok ⟨[("boxes", data)]⟩

/-- Python `num_boxes`: `self.data['boxes'].shape[0]` (0 if the mandatory field is
missing, which the invariant rules out). -/
def BoxList.num_boxes (bl : BoxList) : Nat :=
  match bl.data.lookup "boxes" with
  | some a => a.shape.getD 0 0
  | none => 0

/-- Python `get_extra_fields`: all keys other than `'boxes'`. -/
def BoxList.get_extra_fields (bl : BoxList) : List String :=
  (bl.data.map Prod.fst).filter fun k => k != "boxes"

/-- Python `has_field`: dict membership. -/
def BoxList.has_field (bl : BoxList) (field : String) : Bool :=
  (bl.data.lookup field).isSome

/-- Python `add_field`: rejects duplicate names and field data whose leading
dimension is absent or differs from the box count; otherwise stores the
field. -/
def BoxList.add_field (bl : BoxList) (field : String) (field_data : Ndarray) :
    Except String BoxList :=
  if bl.has_field field then
    .error ("Field " ++ field ++ "already exists")
  else if field_data.shape.length < 1 ∨ field_data.shape.getD 0 0 ≠ bl.num_boxes then
    .error "Invalid dimensions for field data"
  else
    .ok ⟨bl.data ++ [(field, field_data)]⟩

/-- Python `get_field`: the stored array, or a `ValueError` for an absent field. -/
def BoxList.get_field (bl : BoxList) (field : String) : Except String Ndarray :=
  match bl.data.lookup field with
  | some a => .ok a
  | none => .error ("field " ++ field ++ " does not exist")

/-- Python `get`: the mandatory `'boxes'` field. -/
def BoxList.get (bl : BoxList) : Except String Ndarray :=
  bl.get_field "boxes"

/-- Python `get_coordinates`: the four coordinate columns of the box array. -/
def BoxList.get_coordinates (bl : BoxList) : Except String (List (List ℚ)) :=
  match bl.get with
  | .ok a => .ok [col a.rows 0, col a.rows 1, col a.rows 2, col a.rows 3]
  | .error e => .error e

/-- The `BoxList` representation invariant: the mandatory `'boxes'` field is
present, keys are unique, and every stored array has a leading dimension
equal to the box count. -/
def BoxList.Inv (bl : BoxList) : Prop :=
  bl.has_field "boxes" = true ∧
  (bl.data.map Prod.fst).Nodup ∧
  ∀ p ∈ bl.data, 1 ≤ p.2.shape.length ∧ p.2.shape.getD 0 0 = bl.num_boxes

/-! ### Supporting lemmas -/

lemma area_eq_map (boxes : Mat) : area boxes = boxes.map areaEnt := by
  simp [area, col, List.zipWith_map, List.zipWith_same, areaEnt]

lemma intersection_eq_map (b1 b2 : Mat) :
    intersection b1 b2 = b1.map (fun r1 => b2.map (fun r2 => interEnt r1 r2)) := by
  simp only [intersection, col, outer, matZipWith, matMax0, List.map_map,
    List.zipWith_map, List.zipWith_same, interEnt, Function.comp]

lemma union_eq_map (b1 b2 : Mat) :
    union b1 b2 =
      b1.map (fun r1 => b2.map (fun r2 =>
        areaEnt r1 + areaEnt r2 - interEnt r1 r2)) := by
  simp only [union, area_eq_map, intersection_eq_map, outer, matZipWith,
    List.map_map, List.zipWith_map, List.zipWith_same, Function.comp]

lemma iou_eq_map (b1 b2 : Mat) :
    iou b1 b2 =
      b1.map (fun r1 => b2.map (fun r2 =>
        interEnt r1 r2 / (areaEnt r1 + areaEnt r2 - interEnt r1 r2))) := by
  simp only [iou, union_eq_map, intersection_eq_map, matZipWith,
    List.zipWith_map, List.zipWith_same, List.map_map, Function.comp]

lemma ent_map_map (f : List ℚ → List ℚ → ℚ) (A B : Mat) (i j : Nat)
    (hi : i < A.length) (hj : j < B.length) :
    ent (A.map fun a => B.map fun b => f a b) i j = f A[i] B[j] := by
  have h1 : i < (A.map fun a => B.map fun b => f a b).length := by simpa using hi
  unfold ent getv
  rw [List.getD_eq_getElem _ _ h1, List.getElem_map]
  have h2 : j < (B.map fun b => f A[i] b).length := by simpa using hj
  rw [List.getD_eq_getElem _ _ h2, List.getElem_map]

lemma getD_map_eq (f : List ℚ → ℚ) (A : Mat) (i : Nat) (hi : i < A.length) :
    (A.map f).getD i 0 = f A[i] := by
  have h1 : i < (A.map f).length := by simpa using hi
  rw [List.getD_eq_getElem _ _ h1, List.getElem_map]

lemma area_getD (boxes : Mat) (i : Nat) (hi : i < boxes.length) :
    (area boxes).getD i 0 = areaEnt boxes[i] := by
  rw [area_eq_map, getD_map_eq _ _ _ hi]

lemma interEnt_comm (r1 r2 : List ℚ) : interEnt r1 r2 = interEnt r2 r1 := by
  unfold interEnt
  rw [min_comm (getv r1 2), max_comm (getv r1 0), min_comm (getv r1 3),
    max_comm (getv r1 1)]

lemma transposeMat_map_map (f : List ℚ → List ℚ → ℚ) (A B : Mat) :
    transposeMat B.length A.length (B.map fun b => A.map fun a => f b a) =
      A.map fun a => B.map fun b => f b a := by
  apply List.ext_getElem
  · simp [transposeMat]
  intro i h1 h2
  simp only [transposeMat, List.getElem_map, List.getElem_range]
  have hi : i < A.length := by simpa [transposeMat] using h2
  apply List.ext_getElem
  · simp
  intro j hj1 hj2
  have hj : j < B.length := by simpa using hj1
  simp only [List.getElem_map, List.getElem_range]
  rw [ent_map_map f B A j i hj hi]

lemma getD_map_row (f : List ℚ → List ℚ) (A : Mat) (i : Nat) (hi : i < A.length) :
    (A.map f).getD i [] = f A[i] := by
  have h1 : i < (A.map f).length := by simpa using hi
  rw [List.getD_eq_getElem _ _ h1, List.getElem_map]

lemma interEnt_nonneg (r1 r2 : List ℚ) : 0 ≤ interEnt r1 r2 :=
  mul_nonneg (le_max_left 0 _) (le_max_left 0 _)

lemma interEnt_le_areaEnt (r1 r2 : List ℚ)
    (h0 : getv r1 0 ≤ getv r1 2) (h1 : getv r1 1 ≤ getv r1 3) :
    interEnt r1 r2 ≤ areaEnt r1 := by
  unfold interEnt areaEnt
  have hymin := min_le_left (getv r1 2) (getv r2 2)
  have hymax := le_max_left (getv r1 0) (getv r2 0)
  have hxmin := min_le_left (getv r1 3) (getv r2 3)
  have hxmax := le_max_left (getv r1 1) (getv r2 1)
  have hy : max 0 (min (getv r1 2) (getv r2 2) - max (getv r1 0) (getv r2 0)) ≤
      getv r1 2 - getv r1 0 := max_le (by linarith) (by linarith)
  have hx : max 0 (min (getv r1 3) (getv r2 3) - max (getv r1 1) (getv r2 1)) ≤
      getv r1 3 - getv r1 1 := max_le (by linarith) (by linarith)
  exact mul_le_mul hy hx (le_max_left 0 _) (by linarith)

lemma lookup_eq_none_iff {β : Type} (l : List (String × β)) (k : String) :
    l.lookup k = none ↔ k ∉ l.map Prod.fst := by
  induction l with
  | nil => simp
  | cons p t ih =>
    obtain ⟨a, b⟩ := p
    rw [List.lookup]
    rcases eq_or_ne k a with h | h
    · subst h
      simp
    · have hb : (k == a) = false := beq_eq_false_iff_ne.mpr h
      rw [hb]
      simpa [h] using ih

lemma lookup_append_left {β : Type} (l1 l2 : List (String × β)) (k : String)
    (h : (l1.lookup k).isSome) : (l1 ++ l2).lookup k = l1.lookup k := by
  rw [List.lookup_append]
  cases hc : l1.lookup k with
  | some a => rfl
  | none => rw [hc] at h; simp at h

lemma take_one_eq_iff (s : List Nat) (n : Nat) :
    s.take 1 = [n] ↔ 1 ≤ s.length ∧ s.getD 0 0 = n := by
  cases s with
  | nil => simp
  | cons h t => simp [List.take, List.getD, eq_comm]

lemma is_valid_boxes_iff (data : Mat) :
    BoxList.is_valid_boxes data = true ↔
      ∀ r ∈ data, getv r 0 ≤ getv r 2 ∧ getv r 1 ≤ getv r 3 := by
  simp [BoxList.is_valid_boxes, not_or, not_lt]

/-! ### The claims -/

/-- C2: for all box arrays of shapes N×4 and M×4, `intersection` returns an
N×M matrix whose (i, j) entry is
`max 0 (min y_max1 y_max2 − max y_min1 y_min2) * max 0 (min x_max1 x_max2 −
max x_min1 x_min2)`, a box row being read as entries 0..3 =
(y_min, x_min, y_max, x_max). -/
theorem C2_intersection_pairwise (boxes1 boxes2 : Mat) (i j : Nat)
    (hi : i < boxes1.length) (hj : j < boxes2.length) :
    (intersection boxes1 boxes2).length = boxes1.length ∧
    ((intersection boxes1 boxes2).getD i []).length = boxes2.length ∧
    ent (intersection boxes1 boxes2) i j =
      max 0 (min (getv boxes1[i] 2) (getv boxes2[j] 2) -
             max (getv boxes1[i] 0) (getv boxes2[j] 0)) *
      max 0 (min (getv boxes1[i] 3) (getv boxes2[j] 3) -
             max (getv boxes1[i] 1) (getv boxes2[j] 1)) := by
  refine ⟨by simp [intersection_eq_map], ?_, ?_⟩
  · rw [intersection_eq_map, getD_map_row _ _ _ hi]
    simp
  · rw [intersection_eq_map, ent_map_map interEnt _ _ _ _ hi hj]
    rfl

/-- Witness for C2 at the spec's example boxes. -/
theorem C2_intersection_pairwise_witness :
    ent (intersection [[(0:ℚ), 0, 10, 10]] [[(5:ℚ), 5, 15, 15]]) 0 0 =
      max 0 (min 10 15 - max 0 5) * max 0 (min 10 15 - max 0 5) := by
  have h := (C2_intersection_pairwise [[(0:ℚ), 0, 10, 10]] [[(5:ℚ), 5, 15, 15]]
    0 0 (by decide) (by decide)).2.2
  simpa [getv, List.getD] using h

/-- C8: `area` returns one scalar per box, the (i)-th being
`(y_max − y_min) * (x_max − x_min)` of box i, hence 0 whenever
`y_min = y_max` or `x_min = x_max`. -/
theorem C8_area_per_box (boxes : Mat) (i : Nat) (hi : i < boxes.length) :
    (area boxes).length = boxes.length ∧
    (area boxes).getD i 0 =
      (getv boxes[i] 2 - getv boxes[i] 0) * (getv boxes[i] 3 - getv boxes[i] 1) ∧
    ((getv boxes[i] 0 = getv boxes[i] 2 ∨ getv boxes[i] 1 = getv boxes[i] 3) →
      (area boxes).getD i 0 = 0) := by
  refine ⟨by simp [area_eq_map], area_getD _ _ hi, ?_⟩
  intro h
  rw [area_getD _ _ hi]
  unfold areaEnt
  rcases h with h | h <;> rw [h] <;> ring

/-- Witness for C8 at a degenerate box with `y_min = y_max`. -/
theorem C8_area_per_box_witness :
    (area [[(3:ℚ), 5, 3, 9]]).getD 0 0 = 0 := by
  apply (C8_area_per_box [[(3:ℚ), 5, 3, 9]] 0 (by decide)).2.2
  left
  norm_num [getv, List.getD]

/-- C1: `iou` returns the N×M matrix whose (i, j) entry is
`intersection[i, j] / (area1[i] + area2[j] − intersection[i, j])`; on the
spec's example the intersection is [[25]], both areas are [100], and the iou
is [[25/175]]. -/
theorem C1_iou_formula :
    (∀ (boxes1 boxes2 : Mat) (i j : Nat), i < boxes1.length → j < boxes2.length →
      (iou boxes1 boxes2).length = boxes1.length ∧
      ((iou boxes1 boxes2).getD i []).length = boxes2.length ∧
      ent (iou boxes1 boxes2) i j =
        ent (intersection boxes1 boxes2) i j /
          ((area boxes1).getD i 0 + (area boxes2).getD j 0 -
            ent (intersection boxes1 boxes2) i j)) ∧
    intersection [[(0:ℚ), 0, 10, 10]] [[(5:ℚ), 5, 15, 15]] = [[25]] ∧
    area [[(0:ℚ), 0, 10, 10]] = [100] ∧
    area [[(5:ℚ), 5, 15, 15]] = [100] ∧
    iou [[(0:ℚ), 0, 10, 10]] [[(5:ℚ), 5, 15, 15]] = [[25 / 175]] := by
  refine ⟨?_, ?_, ?_, ?_, ?_⟩
  · intro b1 b2 i j hi hj
    refine ⟨by simp [iou_eq_map], ?_, ?_⟩
    · rw [iou_eq_map, getD_map_row _ _ _ hi]
      simp
    · rw [iou_eq_map, ent_map_map _ _ _ _ _ hi hj, intersection_eq_map,
        ent_map_map _ _ _ _ _ hi hj, area_getD _ _ hi, area_getD _ _ hj]
  · norm_num [intersection, col, getv, List.getD, outer, matZipWith, matMax0]
  · norm_num [area, col, getv, List.getD]
  · norm_num [area, col, getv, List.getD]
  · norm_num [iou, union, intersection, area, col, getv, List.getD, outer,
      matZipWith, matMax0]

/-- Witness for C1 at the spec's example boxes. -/
theorem C1_iou_formula_witness :
    ent (iou [[(0:ℚ), 0, 10, 10]] [[(5:ℚ), 5, 15, 15]]) 0 0 =
      ent (intersection [[(0:ℚ), 0, 10, 10]] [[(5:ℚ), 5, 15, 15]]) 0 0 /
        ((area [[(0:ℚ), 0, 10, 10]]).getD 0 0 + (area [[(5:ℚ), 5, 15, 15]]).getD 0 0 -
          ent (intersection [[(0:ℚ), 0, 10, 10]] [[(5:ℚ), 5, 15, 15]]) 0 0) :=
  (C1_iou_formula.1 [[(0:ℚ), 0, 10, 10]] [[(5:ℚ), 5, 15, 15]] 0 0
    (by decide) (by decide)).2.2

/-- C3: comparing two identical zero-area boxes makes the `union` denominator
inside `iou` equal to zero, and `iou` still performs the (unguarded) division
on it — modelled by total division on ℚ, where `0 / 0 = 0`. -/
theorem C3_zero_denominator :
    area [[(0:ℚ), 0, 0, 0]] = [0] ∧
    intersection [[(0:ℚ), 0, 0, 0]] [[(0:ℚ), 0, 0, 0]] = [[0]] ∧
    union [[(0:ℚ), 0, 0, 0]] [[(0:ℚ), 0, 0, 0]] = [[0]] ∧
    iou [[(0:ℚ), 0, 0, 0]] [[(0:ℚ), 0, 0, 0]] = [[(0:ℚ) / 0]] := by
  norm_num [iou, union, intersection, area, col, getv, List.getD, outer,
    matZipWith, matMax0]

/-- C5 counterexample: the box [1, 1, 0, 0] has positive `area` (both extents
are negative, so their product is positive), yet the diagonal of its self-iou
is 0, not 1 — the claim needs the boxes to be well-ordered. -/
theorem C5_counterexample :
    0 < (area [[(1:ℚ), 1, 0, 0]]).getD 0 0 ∧
    ent (iou [[(1:ℚ), 1, 0, 0]] [[(1:ℚ), 1, 0, 0]]) 0 0 = 0 ∧
    ent (iou [[(1:ℚ), 1, 0, 0]] [[(1:ℚ), 1, 0, 0]]) 0 0 ≠ 1 := by
  norm_num [iou, union, intersection, area, col, getv, List.getD, outer,
    matZipWith, matMax0, ent]

/-- C5 (amended): for every box array in which box i is well-ordered
(`y_min ≤ y_max`, `x_min ≤ x_max`) and has positive area, the i-th diagonal
entry of `iou(boxes, boxes)` equals 1. -/
theorem C5_iou_self_diagonal (boxes : Mat) (i : Nat) (hi : i < boxes.length)
    (hv : getv boxes[i] 0 ≤ getv boxes[i] 2 ∧ getv boxes[i] 1 ≤ getv boxes[i] 3)
    (hpos : 0 < (area boxes).getD i 0) :
    ent (iou boxes boxes) i i = 1 := by
  rw [area_getD _ _ hi] at hpos
  rw [iou_eq_map, ent_map_map _ _ _ _ _ hi hi]
  have hy : 0 ≤ getv boxes[i] 2 - getv boxes[i] 0 := by linarith [hv.1]
  have hx : 0 ≤ getv boxes[i] 3 - getv boxes[i] 1 := by linarith [hv.2]
  have hinter : interEnt boxes[i] boxes[i] = areaEnt boxes[i] := by
    unfold interEnt areaEnt
    rw [min_self, min_self, max_self, max_self, max_eq_right hy, max_eq_right hx]
  rw [hinter]
  have harith : areaEnt boxes[i] + areaEnt boxes[i] - areaEnt boxes[i] =
      areaEnt boxes[i] := by ring
  rw [harith]
  exact div_self (ne_of_gt hpos)

/-- Witness for the amended C5 at a well-ordered positive-area box. -/
theorem C5_iou_self_diagonal_witness :
    ent (iou [[(0:ℚ), 0, 10, 10]] [[(0:ℚ), 0, 10, 10]]) 0 0 = 1 := by
  apply C5_iou_self_diagonal [[(0:ℚ), 0, 10, 10]] 0 (by decide)
  · constructor <;> norm_num [getv, List.getD]
  · norm_num [area, col, getv, List.getD]

/-- C6: `intersection A B` equals the (shape-aware) transpose of
`intersection B A`. -/
theorem C6_intersection_transpose (A B : Mat) :
    intersection A B = transposeMat B.length A.length (intersection B A) := by
  rw [intersection_eq_map B A, transposeMat_map_map interEnt A B,
    intersection_eq_map A B]
  refine List.map_congr_left fun a _ => ?_
  exact List.map_congr_left fun b _ => interEnt_comm a b

/-- C10: with all boxes well-ordered, every `intersection` entry is
non-negative and at most the smaller of the two box areas, and every `iou`
entry whose denominator is positive lies in [0, 1]. -/
theorem C10_intersection_iou_bounds (boxes1 boxes2 : Mat)
    (hb1 : ∀ r ∈ boxes1, getv r 0 ≤ getv r 2 ∧ getv r 1 ≤ getv r 3)
    (hb2 : ∀ r ∈ boxes2, getv r 0 ≤ getv r 2 ∧ getv r 1 ≤ getv r 3)
    (i j : Nat) (hi : i < boxes1.length) (hj : j < boxes2.length) :
    0 ≤ ent (intersection boxes1 boxes2) i j ∧
    ent (intersection boxes1 boxes2) i j ≤
      min ((area boxes1).getD i 0) ((area boxes2).getD j 0) ∧
    (0 < (area boxes1).getD i 0 + (area boxes2).getD j 0 -
        ent (intersection boxes1 boxes2) i j →
      0 ≤ ent (iou boxes1 boxes2) i j ∧ ent (iou boxes1 boxes2) i j ≤ 1) := by
  have h1 := hb1 boxes1[i] (List.getElem_mem hi)
  have h2 := hb2 boxes2[j] (List.getElem_mem hj)
  rw [iou_eq_map, intersection_eq_map, ent_map_map _ _ _ _ _ hi hj,
    ent_map_map _ _ _ _ _ hi hj, area_getD _ _ hi, area_getD _ _ hj]
  have ha : interEnt boxes1[i] boxes2[j] ≤ areaEnt boxes1[i] :=
    interEnt_le_areaEnt _ _ h1.1 h1.2
  have hb : interEnt boxes1[i] boxes2[j] ≤ areaEnt boxes2[j] := by
    rw [interEnt_comm]
    exact interEnt_le_areaEnt _ _ h2.1 h2.2
  refine ⟨interEnt_nonneg _ _, le_min ha hb, ?_⟩
  intro hpos
  refine ⟨div_nonneg (interEnt_nonneg _ _) (le_of_lt hpos), ?_⟩
  rw [div_le_one hpos]
  linarith

/-- Witness for C10 at the spec's example boxes. -/
theorem C10_intersection_iou_bounds_witness :
    0 ≤ ent (intersection [[(0:ℚ), 0, 10, 10]] [[(5:ℚ), 5, 15, 15]]) 0 0 :=
  (C10_intersection_iou_bounds [[(0:ℚ), 0, 10, 10]] [[(5:ℚ), 5, 15, 15]]
    (by norm_num [getv, List.getD]) (by norm_num [getv, List.getD])
    0 0 (by decide) (by decide)).1

/-- C4: BoxList construction errors exactly when the input is not an array,
is not of shape N×4, has a non-float dtype, or has a row with
`y_min > y_max` or `x_min > x_max`; in particular a 3×3 array and the single
box [0, 0, −1, 1] are both rejected. -/
theorem C4_init_validation :
    (∀ v : PyValue, isErr (BoxList.init v) = true ↔
      (v = .other ∨ ∃ a, v = .ndarray a ∧
        (¬(a.shape.length = 2 ∧ a.shape.getD 1 0 = 4) ∨
         (a.dtype ≠ .float32 ∧ a.dtype ≠ .float64) ∨
         ∃ r ∈ a.rows, getv r 0 > getv r 2 ∨ getv r 1 > getv r 3))) ∧
    isErr (BoxList.init
      (.ndarray ⟨.float64, [3, 3], [[0, 0, 0], [0, 0, 0], [0, 0, 0]]⟩)) = true ∧
    isErr (BoxList.init (.ndarray ⟨.float64, [1, 4], [[0, 0, -1, 1]]⟩)) = true := by
  refine ⟨?_, by decide, by decide⟩
  intro v
  cases v with
  | other => simp [BoxList.init, isErr]
  | ndarray a =>
    have hval : (¬ BoxList.is_valid_boxes a.rows = true) ↔
        ∃ r ∈ a.rows, getv r 0 > getv r 2 ∨ getv r 1 > getv r 3 := by
      rw [is_valid_boxes_iff]
      push_neg
      constructor
      · rintro ⟨r, hr, h⟩
        rcases le_or_lt (getv r 0) (getv r 2) with h0 | h0
        · exact ⟨r, hr, Or.inr (h h0)⟩
        · exact ⟨r, hr, Or.inl h0⟩
      · rintro ⟨r, hr, h | h⟩
        · exact ⟨r, hr, fun hc => absurd hc (not_le.mpr h)⟩
        · exact ⟨r, hr, fun _ => h⟩
    simp only [BoxList.init]
    split_ifs with h1 h2 h3
    · refine iff_of_true rfl (Or.inr ⟨a, rfl, Or.inl ?_⟩)
      rw [not_and_or]
      exact h1
    · exact iff_of_true rfl (Or.inr ⟨a, rfl, Or.inr (Or.inl h2)⟩)
    · refine iff_of_false (by simp [isErr]) ?_
      rintro (hc | ⟨a', ha', hc⟩)
      · exact hc.elim
      · injection ha' with ha'
        subst ha'
        rcases hc with hc | hc | hc
        · rw [not_and_or] at hc
          exact h1 hc
        · exact h2 hc
        · exact absurd h3 (hval.mpr hc)
    · exact iff_of_true rfl (Or.inr ⟨a, rfl, Or.inr (Or.inr (hval.mp h3))⟩)

/-- C7: `add_field` errors exactly when the field name is already present or
the field data has no leading dimension equal to the stored box count;
adding a fresh, length-matched field succeeds and stores it. -/
theorem C7_add_field_validation :
    (∀ (bl : BoxList) (field : String) (fd : Ndarray),
      isErr (bl.add_field field fd) = true ↔
        (bl.has_field field = true ∨ fd.shape.take 1 ≠ [bl.num_boxes])) ∧
    (BoxList.mk [("boxes", ⟨.float64, [1, 4], [[0, 0, 10, 10]]⟩)]).add_field
        "scores" ⟨.float64, [1], [[1]]⟩ =
      .ok ⟨[("boxes", ⟨.float64, [1, 4], [[0, 0, 10, 10]]⟩),
            ("scores", ⟨.float64, [1], [[1]]⟩)]⟩ := by
  refine ⟨?_, by rfl⟩
  intro bl field fd
  simp only [BoxList.add_field]
  split_ifs with h1 h2
  · exact iff_of_true rfl (Or.inl h1)
  · refine iff_of_true rfl (Or.inr ?_)
    rw [Ne, take_one_eq_iff]
    rintro ⟨ha, hb⟩
    rcases h2 with h2 | h2
    · omega
    · exact h2 hb
  · refine iff_of_false (by simp [isErr]) ?_
    rw [not_or, Ne, not_not, take_one_eq_iff]
    push_neg at h2
    exact ⟨h1, h2.1, h2.2⟩

/-- C9: construction establishes the `BoxList` invariant (mandatory `'boxes'`
field, unique field names, every field's leading dimension equal to the box
count) and stores exactly the validated array; a successful `add_field` is
the only state change and merely appends the new field, preserving the
invariant and every existing field. -/
theorem C9_boxlist_invariant :
    (∀ (v : PyValue) (bl : BoxList), BoxList.init v = .ok bl →
      BoxList.Inv bl ∧ ∃ a, v = .ndarray a ∧ bl.data = [("boxes", a)]) ∧
    (∀ (bl : BoxList) (field : String) (fd : Ndarray) (bl' : BoxList),
      BoxList.Inv bl → bl.add_field field fd = .ok bl' →
      BoxList.Inv bl' ∧ bl'.data = bl.data ++ [(field, fd)]) := by
  constructor
  · intro v bl h
    cases v with
    | other => exact Except.noConfusion h
    | ndarray a =>
      simp only [BoxList.init] at h
      split_ifs at h with h1 h2 h3
      injection h with h'
      subst h'
      push_neg at h1
      refine ⟨⟨rfl, by simp, ?_⟩, a, rfl, rfl⟩
      intro p hp
      rw [List.mem_singleton] at hp
      subst hp
      refine ⟨?_, rfl⟩
      show 1 ≤ a.shape.length
      omega
  · intro bl field fd bl' hInv h
    simp only [BoxList.add_field] at h
    split_ifs at h with h1 h2
    injection h with h'
    subst h'
    push_neg at h2
    have hbf : (bl.data.lookup "boxes").isSome := hInv.1
    have hlook : ((bl.data ++ [(field, fd)]).lookup "boxes") =
        bl.data.lookup "boxes" := lookup_append_left _ _ _ hbf
    have hnum : BoxList.num_boxes ⟨bl.data ++ [(field, fd)]⟩ = bl.num_boxes := by
      simp only [BoxList.num_boxes]
      rw [hlook]
    have hnotin : field ∉ bl.data.map Prod.fst := by
      rw [← lookup_eq_none_iff]
      rcases hc : bl.data.lookup field with _ | c
      · rfl
      · exact absurd (by simp [BoxList.has_field, hc]) h1
    refine ⟨⟨?_, ?_, ?_⟩, rfl⟩
    · simp only [BoxList.has_field]
      rw [hlook]
      exact hbf
    · rw [List.map_append, List.nodup_append]
      refine ⟨hInv.2.1, by simp, ?_⟩
      intro x hx hx'
      simp only [List.map_cons, List.map_nil, List.mem_singleton] at hx'
      subst hx'
      exact hnotin hx
    · intro p hp
      rw [List.mem_append] at hp
      rcases hp with hp | hp
      · have := hInv.2.2 p hp
        rw [hnum]
        exact this
      · rw [List.mem_singleton] at hp
        subst hp
        rw [hnum]
        exact ⟨h2.1, h2.2⟩

/-- Witness for C9: the invariant holds for a concretely constructed
collection, via the init clause of the theorem. -/
theorem C9_boxlist_invariant_witness :
    BoxList.Inv ⟨[("boxes", ⟨Dtype.float64, [1, 4], [[0, 0, 10, 10]]⟩)]⟩ :=
  (C9_boxlist_invariant.1 (.ndarray ⟨Dtype.float64, [1, 4], [[0, 0, 10, 10]]⟩)
    ⟨[("boxes", ⟨Dtype.float64, [1, 4], [[0, 0, 10, 10]]⟩)]⟩ (by rfl)).1

end NpBox
